import Mathlib

/-!
# Mount negotiation on darwin (`mount_darwin.go`) and `tToTv` (`examples/loopback/linux-64bit.go`)

A shallow embedding of the two source files.  Calls into the operating system and the Go
standard library are answered by a `World` record of outcomes; the code under study is
translated statement by statement on top of it.  Every call the code makes is appended to a
trace kept in the system state `Sys`, together with the set of descriptors the code has open.
-/

namespace Fuse

/-! ## Errors -/

/-- Error values the two files produce or pass on.  `sys code` stands for an error value handed
back by the kernel or the standard library (a `syscall.Errno`, an `*os.PathError`, `io.EOF`, an
`*exec.Error`, an `*exec.ExitError`); the other constructors are the errors built in
`mount_darwin.go` itself, one per `fmt.Errorf` / sentinel. -/
inductive Error where
  | sys (code : Nat)
  | syscallError (call : String) (code : Nat)
  | fusetNotFound
  | ErrOSXFUSENotFound
  | expectedZeroBytes (reply : List Nat)
  | fusetMountFailed (inner : Error)
  | mountOsxfuseFailed (inner : Error) (errOut : String) (out : String)
  | wrongControlType (type : Int)
  | tooShortControl (oobn : Int)
  | fdNegative (fd : Int)
  deriving DecidableEq, Repr

/-- An `*os.File`: the descriptor it wraps and the name given to `os.NewFile`. -/
structure File where
  fd : Nat
  name : String
  deriving DecidableEq, Repr

/-! ## Declarations of the package that live outside the two files -/

/-- Modelled from the spec: the backend-forcing setting `forcedBackend`, declared outside
`mount_darwin.go`; "an external enum-like setting with states {unset, force-legacy,
force-modern}". -/
inductive ForcedBackend where
  | unset
  | forceLegacy
  | forceModern
  deriving DecidableEq, Repr

/-- Modelled from the spec: `forcedBackend.IsUnset()`, true in the state `unset` only. -/
def ForcedBackend.IsUnset (b : ForcedBackend) : Bool :=
  match b with
  | .unset => true
  | _ => false

/-- Modelled from the spec: `forcedBackend.IsFuseT()`, true in the state `force-modern` only. -/
def ForcedBackend.IsFuseT (b : ForcedBackend) : Bool :=
  match b with
  | .forceModern => true
  | _ => false

/-- Modelled from the spec: the tag "identifying which backend satisfied the request"; the
two values `mount` assigns are `fuseTBackend` and `osxfuseBackend`. -/
inductive Backend where
  | fuseTBackend
  | osxfuseBackend
  deriving DecidableEq, Repr

/-- Modelled from the spec: a candidate installation location (`OSXFUSEPaths`).  `mount` reads
its `Mount` field only, the path of the helper binary. -/
structure OSXFUSEPaths where
  Mount : String
  deriving DecidableEq, Repr

/-- The part of `*mountConfig` that `mount_darwin.go` reads: the results of `isReadonly()`,
`fsname()` and `getOptions()`, and the field `osxfuseLocations` (`none` is the nil slice). -/
structure mountConfig where
  isReadonly : Bool
  fsname : String
  getOptions : String
  osxfuseLocations : Option (List OSXFUSEPaths)

/-- State kept by the FUSE-T backend: the files that must stay reachable. -/
structure fuseTBackendState where
  extraFiles : List File
  deriving DecidableEq, Repr

/-! ## The world outside the process -/

/-- Outcome of `os.Stat`: success, an error for which `os.IsNotExist` holds, or another error. -/
inductive StatResult where
  | ok
  | notExist
  | otherError (code : Nat)
  deriving DecidableEq, Repr

/-- What `syscall.Recvmsg` leaves behind: the count of control bytes `oobn`, the contents of the
control buffer after the call (byte `i` is `control.getD i 0 % 256`; the buffer is allocated
zeroed) and the error, `none` for nil. -/
structure RecvmsgResult where
  oobn : Int
  control : List Nat
  err : Option Nat

/-- Outcome of `File.Read` on a 4-byte buffer: the bytes delivered (`n` is their number) and
the error. -/
structure ReadResult where
  data : List Nat
  err : Option Nat

/-- Answers of the operating system and of package-level declarations that are outside the two
files.  `socketpair k` is the errno of the `k`-th `Socketpair` call of the attempt (`none`:
success); `start bin args` the error of `cmd.Start` (`none`: success). -/
structure World where
  forcedBackend : ForcedBackend
  getenv : String → String
  environ : List String
  arg0 : String
  stat : String → StatResult
  socketpair : Nat → Option Nat
  start : String → List String → Option Nat
  recvmsg : Nat → RecvmsgResult
  dup : Nat → Option Nat
  maxWrite : Nat
  OSXFUSELocationV4 : OSXFUSEPaths
  OSXFUSELocationV3 : OSXFUSEPaths

/-- The function of `mount_darwin.go` that performs a call. -/
inductive Fn where
  | fusetBinary
  | mountFuseT
  | mount
  | unixgramSocketpair
  | getConnection
  deriving DecidableEq, Repr

/-- The background task a `go` statement starts. -/
inductive Task where
  | fuseTHandshake (monitor : Nat)
  | osxfuseWait
  deriving DecidableEq, Repr

/-- A call into the operating system or the runtime. -/
inductive Op where
  | getenv (name : String)
  | stat (path : String)
  | socketpair (fds : Option (Nat × Nat))
  | close (fd : Nat)
  | closeOnExec (fd : Nat)
  | start (bin : String) (args : List String) (extraFiles : List Nat) (env : List String)
  | release
  | go (task : Task)
  | recvmsg (fd : Nat)
  | dup (fd : Nat) (res : Option Nat)
  deriving DecidableEq, Repr

/-- One entry of the trace: which function made which call. -/
structure Event where
  fn : Fn
  op : Op
  deriving DecidableEq, Repr

/-- State of the process during one mount attempt: the descriptors that are open (those
present before the attempt, those created by `Socketpair` and `Dup`, and the one received
through `Recvmsg`), the number of `Socketpair` calls made, and the calls made so far. -/
structure Sys where
  openFds : List Nat
  socketpairCalls : Nat
  trace : List Event
  deriving DecidableEq, Repr

/-- Append a call to the trace. -/
def Sys.log (s : Sys) (fn : Fn) (op : Op) : Sys :=
  { s with trace := s.trace ++ [⟨fn, op⟩] }

/-- The lowest descriptor number not in use, as the kernel allocates it. -/
def lowestFree (used : List Nat) : Nat :=
  ((List.range (used.length + 1)).find? (fun n => !used.contains n)).getD used.length

/-- Call `syscall.Socketpair(AF_UNIX, SOCK_STREAM, 0)`: on success two fresh descriptors. -/
def syscallSocketpair (w : World) (fn : Fn) (s : Sys) : Except Nat (Nat × Nat) × Sys :=
  match w.socketpair s.socketpairCalls with
  | some e =>
    (.error e, { (s.log fn (.socketpair none)) with socketpairCalls := s.socketpairCalls + 1 })
  | none =>
    let fd0 := lowestFree s.openFds
    let fd1 := lowestFree (fd0 :: s.openFds)
    (.ok (fd0, fd1),
      { (s.log fn (.socketpair (some (fd0, fd1)))) with
        openFds := fd1 :: fd0 :: s.openFds
        socketpairCalls := s.socketpairCalls + 1 })

/-- Calls `syscall.Close(fd)` and `(*os.File).Close`: the descriptor is no longer open. -/
def syscallClose (fn : Fn) (fd : Nat) (s : Sys) : Sys :=
  { (s.log fn (.close fd)) with openFds := s.openFds.filter (fun x => x != fd) }

/-- Call `syscall.CloseOnExec(fd)`. -/
def syscallCloseOnExec (fn : Fn) (fd : Nat) (s : Sys) : Sys :=
  s.log fn (.closeOnExec fd)

/-- Call `syscall.Dup(fd)`: on success a fresh descriptor. -/
def syscallDup (w : World) (fn : Fn) (fd : Nat) (s : Sys) : Except Nat Nat × Sys :=
  match w.dup fd with
  | some e => (.error e, s.log fn (.dup fd none))
  | none =>
    let d := lowestFree s.openFds
    (.ok d, { (s.log fn (.dup fd (some d))) with openFds := d :: s.openFds })

/-- Call `cmd.Start()` for the command `bin args` with the given extra files and added environment. -/
def cmdStart (w : World) (fn : Fn) (bin : String) (args : List String) (extraFiles : List Nat)
    (env : List String) (s : Sys) : Option Nat × Sys :=
  (w.start bin args, s.log fn (.start bin args extraFiles env))

/-! ## `fusetBinary` -/

/-- The constant `FUSET_SRV_PATH`. -/
def FUSET_SRV_PATH : String := "/usr/local/bin/go-nfsv4"

/-- Function `fusetBinary`: the path from `FUSE_NFSSRV_PATH` (or the default) if `os.Stat` succeeds
on it, else the error "FUSE-T not found". -/
def fusetBinary (w : World) (s : Sys) : (String × Option Error) × Sys :=
  let s1 := s.log .fusetBinary (.getenv "FUSE_NFSSRV_PATH")
  let srv_path := if w.getenv "FUSE_NFSSRV_PATH" = "" then FUSET_SRV_PATH
    else w.getenv "FUSE_NFSSRV_PATH"
  let s2 := s1.log .fusetBinary (.stat srv_path)
  if w.stat srv_path = .ok then ((srv_path, none), s2)
  else (("", some .fusetNotFound), s2)

/-! ## `mountFuseT` -/

/-- Result triple of `mountFuseT`. -/
structure FuseTResult where
  file : Option File
  state : fuseTBackendState
  err : Option Error
  deriving DecidableEq, Repr

/-- Command-line arguments `mountFuseT` builds. -/
def fuseTArgs (w : World) (mountPoint : String) (conf : mountConfig) : List String :=
  let args : List String := []
  let args := if conf.isReadonly then args ++ ["-r"] else args
  let args := if conf.fsname ≠ "" then args ++ ["--volname=" ++ conf.fsname] else args
  let args := args ++ ["--rwsize=" ++ toString w.maxWrite]
  args ++ [mountPoint]

/-- Environment `mountFuseT` gives the helper. -/
def fuseTEnv (w : World) : List String :=
  w.environ ++ ["_FUSE_COMMFD=3", "_FUSE_MONFD=4", "_FUSE_COMMVERS=2"]

/-- Function `mountFuseT`, up to the `go` statement; the deferred `syscall.Close` calls run at every
return after their `defer`, last deferred first. -/
def mountFuseT (w : World) (bin mountPoint : String) (conf : mountConfig) (s : Sys) :
    FuseTResult × Sys :=
  match syscallSocketpair w .mountFuseT s with
  | (.error e, s1) => (⟨none, ⟨[]⟩, some (.sys e)⟩, s1)
  | (.ok (localFd, remoteFd), s1) =>
    match syscallSocketpair w .mountFuseT s1 with
    | (.error e, s2) =>
      (⟨none, ⟨[]⟩, some (.sys e)⟩, syscallClose .mountFuseT remoteFd s2)
    | (.ok (local_mon, remote_mon), s2) =>
      let args := fuseTArgs w mountPoint conf
      let local_file : File := ⟨localFd, ""⟩
      let local_mon_file : File := ⟨local_mon, ""⟩
      let s3 := syscallCloseOnExec .mountFuseT local_mon
        (syscallCloseOnExec .mountFuseT localFd s2)
      match cmdStart w .mountFuseT bin args [remoteFd, remote_mon] (fuseTEnv w) s3 with
      | (some e, s4) =>
        (⟨none, ⟨[]⟩, some (.sys e)⟩,
          syscallClose .mountFuseT remoteFd (syscallClose .mountFuseT remote_mon s4))
      | (none, s4) =>
        let s5 := s4.log .mountFuseT .release
        let s6 := s5.log .mountFuseT (.go (.fuseTHandshake local_mon))
        (⟨some local_file, ⟨[local_mon_file]⟩, none⟩,
          syscallClose .mountFuseT remoteFd (syscallClose .mountFuseT remote_mon s6))

/-! ## `getConnection` -/

/-- The constant `syscall.SizeofCmsghdr` on darwin (`0xc`: `Len uint32`, `Level int32`,
`Type int32`). -/
def SizeofCmsghdr : Int := 12

/-- The constant `syscall.SCM_RIGHTS` on darwin. -/
def SCM_RIGHTS : Int := 1

/-- Byte `i` of the control buffer. -/
def byteAt (control : List Nat) (i : Nat) : Nat :=
  control.getD i 0 % 256

/-- The `int32` stored little-endian at offset `off` of the control buffer. -/
def int32At (control : List Nat) (off : Nat) : Int :=
  let u := byteAt control off + 256 * byteAt control (off + 1)
    + 65536 * byteAt control (off + 2) + 16777216 * byteAt control (off + 3)
  if u < 2147483648 then (u : Int) else (u : Int) - 4294967296

/-- Result pair of `getConnection`. -/
structure ConnResult where
  file : Option File
  err : Option Error
  deriving DecidableEq, Repr

/-- Function `getConnection`: receive one message on `localFile` and take the descriptor out of its
control data.  A control message that passes the three checks is a rights message, whose
descriptor the kernel has installed in the process. -/
def getConnection (w : World) (localFile : File) (s : Sys) : ConnResult × Sys :=
  let s1 := s.log .getConnection (.recvmsg localFile.fd)
  let r := w.recvmsg localFile.fd
  match r.err with
  | some e => (⟨none, some (.sys e)⟩, s1)
  | none =>
    let messageType := int32At r.control 8
    let fd := int32At r.control SizeofCmsghdr.toNat
    if messageType ≠ SCM_RIGHTS then (⟨none, some (.wrongControlType messageType)⟩, s1)
    else if r.oobn ≤ SizeofCmsghdr then (⟨none, some (.tooShortControl r.oobn)⟩, s1)
    else if fd < 0 then (⟨none, some (.fdNegative fd)⟩, s1)
    else (⟨some ⟨fd.toNat, "macfuse"⟩, none⟩, { s1 with openFds := fd.toNat :: s1.openFds })

/-! ## `unixgramSocketpair` and `mount` -/

/-- Function `unixgramSocketpair`: a socket pair wrapped in two files, or the wrapped errno. -/
def unixgramSocketpair (w : World) (s : Sys) : Except Error (File × File) × Sys :=
  match syscallSocketpair w .unixgramSocketpair s with
  | (.error e, s1) => (.error (.syscallError "socketpair" e), s1)
  | (.ok (fd0, fd1), s1) => (.ok (⟨fd0, "socketpair-half1"⟩, ⟨fd1, "socketpair-half2"⟩), s1)

/-- Result of `mount`: the named results `f`, `be`, `bes`, `err`; `none` is the zero value. -/
structure MountResult where
  f : Option File
  be : Option Backend
  bes : Option fuseTBackendState
  err : Option Error
  deriving DecidableEq, Repr

/-- The loop of `mount` over the locations: `os.Stat` on each `Mount` path in order, stopping
at the first for which `os.IsNotExist` does not hold; the value of `binLocation` after it. -/
def probeLocations (w : World) : List OSXFUSEPaths → Sys → String × Sys
  | [], s => ("", s)
  | loc :: rest, s =>
    let s1 := s.log .mount (.stat loc.Mount)
    if w.stat loc.Mount = .notExist then probeLocations w rest s1
    else (loc.Mount, s1)

/-- Command-line arguments `mount` builds for the OSXFUSE helper. -/
def osxfuseArgs (w : World) (mountPoint : String) (conf : mountConfig) : List String :=
  ["-o", conf.getOptions, "-o", "iosize=" ++ toString w.maxWrite, mountPoint]

/-- Environment `mount` gives the OSXFUSE helper. -/
def osxfuseEnv (w : World) : List String :=
  w.environ ++ ["_FUSE_CALL_BY_LIB=", "_FUSE_DAEMON_PATH=" ++ w.arg0, "_FUSE_COMMFD=3",
    "_FUSE_COMMVERS=2", "MOUNT_OSXFUSE_CALL_BY_LIB=", "MOUNT_OSXFUSE_DAEMON_PATH=" ++ w.arg0]

/-- The list `mount` iterates: `conf.osxfuseLocations`, or V4 then V3 when that is nil. -/
def mountLocations (w : World) (conf : mountConfig) : List OSXFUSEPaths :=
  match conf.osxfuseLocations with
  | none => [w.OSXFUSELocationV4, w.OSXFUSELocationV3]
  | some locations => locations

/-- Lines 141 to 226 of `mount`: the OSXFUSE path.  The two deferred `Close` calls run at every
return after the socket pair exists, `remote` first. -/
def mountOSXFUSE (w : World) (mountPoint : String) (conf : mountConfig) (s : Sys) :
    MountResult × Sys :=
  let locations := mountLocations w conf
  match probeLocations w locations s with
  | (binLocation, s1) =>
    if binLocation = "" then (⟨none, none, none, some .ErrOSXFUSENotFound⟩, s1)
    else
      match unixgramSocketpair w s1 with
      | (.error e, s2) => (⟨none, none, none, some e⟩, s2)
      | (.ok (localFile, remoteFile), s2) =>
        let closeBoth := fun (t : Sys) =>
          syscallClose .mount localFile.fd (syscallClose .mount remoteFile.fd t)
        match cmdStart w .mount binLocation (osxfuseArgs w mountPoint conf) [remoteFile.fd]
            (osxfuseEnv w) s2 with
        | (some e, s3) => (⟨none, none, none, some (.sys e)⟩, closeBoth s3)
        | (none, s3) =>
          match getConnection w localFile s3 with
          | (⟨_, some e⟩, s4) => (⟨none, none, none, some e⟩, closeBoth s4)
          -- `getConnection` never returns a nil file with a nil error
          | (⟨none, none⟩, s4) => (⟨none, none, none, none⟩, closeBoth s4)
          | (⟨some fd, none⟩, s4) =>
            let s5 := s4.log .mount (.go .osxfuseWait)
            match syscallDup w .mount fd.fd s5 with
            | (.error e, s6) => (⟨none, none, none, some (.sys e)⟩, closeBoth s6)
            | (.ok dup, s6) =>
              let s7 := syscallCloseOnExec .mount dup (syscallCloseOnExec .mount fd.fd s6)
              (⟨some ⟨dup, "macfuse"⟩, some .osxfuseBackend, none, none⟩, closeBoth s7)

/-- Function `mount`: FUSE-T first unless OSXFUSE is forced, OSXFUSE when FUSE-T is not forced and its
binary was not found. -/
def mount (w : World) (mountPoint : String) (conf : mountConfig) (s : Sys) :
    MountResult × Sys :=
  if w.forcedBackend.IsUnset || w.forcedBackend.IsFuseT then
    match fusetBinary w s with
    | ((fuseTBin, none), s1) =>
      match mountFuseT w fuseTBin mountPoint conf s1 with
      | (r, s2) => (⟨r.file, some .fuseTBackend, some r.state, r.err⟩, s2)
    | ((_, some e), s1) =>
      if w.forcedBackend.IsFuseT then (⟨none, none, none, some e⟩, s1)
      else mountOSXFUSE w mountPoint conf s1
  else mountOSXFUSE w mountPoint conf s

/-! ## The background tasks and the readiness signal -/

/-- What a task does to the signal pair: a store into `*errp`, or `close(ready)`. -/
inductive SigEvent where
  | store (e : Option Error)
  | fire
  deriving DecidableEq, Repr

/-- The pair `(ready, errp)` as the tasks see it: the current content of the error slot and
the operations done on the pair so far. -/
structure Signal where
  errp : Option Error
  events : List SigEvent
  deriving DecidableEq, Repr

/-- The assignment `*errp = err`. -/
def Signal.store (g : Signal) (e : Option Error) : Signal :=
  { errp := e, events := g.events ++ [.store e] }

/-- The statement `close(ready)`. -/
def Signal.close (g : Signal) : Signal :=
  { g with events := g.events ++ [.fire] }

/-- The array `reply` after `Read(reply[:])`: four zero bytes overwritten from the front by the
bytes delivered. -/
def replyAfterRead (data : List Nat) : List Nat :=
  (List.range 4).map (fun i => data.getD i 0 % 256)

/-- The task started by `mountFuseT` (lines 93 to 107).  `writeErr` is the error of
`Write([]byte("mount"))`, `rd` the outcome of the `Read`, which happens only after a
successful write. -/
def fuseTHandshakeTask (writeErr : Option Nat) (rd : ReadResult) (g : Signal) : Signal :=
  let err : Option Error :=
    match writeErr with
    | some e => some (.sys e)
    | none =>
      let reply := replyAfterRead rd.data
      match rd.err with
      | some e => some (.sys e)
      | none =>
        if reply ≠ [0, 0, 0, 0] then some (.expectedZeroBytes reply) else none
  let err : Option Error :=
    match err with
    | some e => some (.fusetMountFailed e)
    | none => none
  (g.store err).close

/-- The task started by `mount` on the OSXFUSE path (lines 205 to 213).  `waitErr` is the
error of `cmd.Wait()`, `errOut` and `out` the captured output. -/
def osxfuseWaitTask (waitErr : Option Nat) (errOut out : String) (g : Signal) : Signal :=
  match waitErr with
  | some e => (g.store (some (.mountOsxfuseFailed (.sys e) errOut out))).close
  | none => g.close

/-! ## `tToTv` -/

/-- A `time.Time`: whole seconds since the Unix epoch (rounded down) and the nanoseconds within
that second, `0 ≤ nsec < 1e9`. -/
structure Time where
  sec : Int
  nsec : Nat
  deriving DecidableEq, Repr

/-- Wrap-around into `int64`. -/
def wrap64 (x : Int) : Int :=
  Int.bmod x (2 ^ 64)

/-- Method `t.Unix()`. -/
def Time.Unix (t : Time) : Int :=
  wrap64 t.sec

/-- Method `t.UnixNano()`. -/
def Time.UnixNano (t : Time) : Int :=
  wrap64 (t.sec * 1000000000 + t.nsec)

/-- Type `syscall.Timeval` on 64-bit linux. -/
structure Timeval where
  Sec : Int
  Usec : Int
  deriving DecidableEq, Repr

/-- Function `tToTv`; the operators `%` and `/` of Go truncate toward zero. -/
def tToTv (t : Time) : Timeval :=
  { Sec := t.Unix
    Usec := Int.tdiv (Int.tmod t.UnixNano 1000000000) 1000 }

/-- The store events of a signal history. -/
def SigEvent.isStore : SigEvent → Bool
  | .store _ => true
  | .fire => false

/-- Calls made by the OSXFUSE path: those `mount` makes itself (the probes of the locations,
the launch of the helper, `Dup`, the closes) and those of its callees `unixgramSocketpair` and
`getConnection`. -/
def Fn.isLegacy : Fn → Bool
  | .mount => true
  | .unixgramSocketpair => true
  | .getConnection => true
  | _ => false

/-- The calls made between state `s` and the later state `t`. -/
def newEvents (s t : Sys) : List Event :=
  t.trace.drop s.trace.length

/-- Between `s` and `t` the trace only grew, and every call added satisfies `P`. -/
def Grows (P : Event → Prop) (s t : Sys) : Prop :=
  ∃ added, t.trace = s.trace ++ added ∧ ∀ ev ∈ added, P ev

/-- The property of a call on the OSXFUSE path after the probes, when the probes selected
`bin`: it is made on the OSXFUSE path, it is not a probe, and a launch launches `bin`. -/
def afterProbe (bin : String) (ev : Event) : Prop :=
  ev.fn.isLegacy = true ∧ (∀ p, ev.op ≠ .stat p) ∧
    ∀ b args extra env, ev.op = .start b args extra env → b = bin

/-- The probe `mount` makes of a location. -/
def probeEvent (loc : OSXFUSEPaths) : Event :=
  ⟨.mount, .stat loc.Mount⟩

/-! ## Concrete inputs used below -/

/-- A world in which every path is absent except the default FUSE-T binary, every socket pair
and `Dup` succeeds, `cmd.Start` answers `startErr`, and `Recvmsg` answers `r`. -/
def sampleWorld (forced : ForcedBackend) (startErr : Option Nat) (r : RecvmsgResult) : World :=
  { forcedBackend := forced
    getenv := fun _ => ""
    environ := []
    arg0 := "fs"
    stat := fun p => if p = FUSET_SRV_PATH then .ok else .notExist
    socketpair := fun _ => none
    start := fun _ _ => startErr
    recvmsg := fun _ => r
    dup := fun _ => none
    maxWrite := 131072
    OSXFUSELocationV4 := ⟨"/Library/Filesystems/macfuse.fs/Contents/Resources/mount_macfuse"⟩
    OSXFUSELocationV3 := ⟨"/Library/Filesystems/osxfuse.fs/Contents/Resources/mount_osxfuse"⟩ }

/-- A rights message of 16 control bytes carrying descriptor 7. -/
def rightsMessage : RecvmsgResult :=
  ⟨16, [16, 0, 0, 0, 255, 255, 0, 0, 1, 0, 0, 0, 7, 0, 0, 0], none⟩

/-- A control message with a rights header and descriptor bytes `3`, but of length 12: the
header alone. -/
def headerOnlyMessage : RecvmsgResult :=
  ⟨12, [12, 0, 0, 0, 255, 255, 0, 0, 1, 0, 0, 0, 3, 0, 0, 0], none⟩

/-- A world with nothing forced in which the FUSE-T binary is absent and, of the two default
locations, only the V3 helper is present. -/
def legacyWorld : World :=
  { sampleWorld .unset none rightsMessage with
    stat := fun p =>
      if p = "/Library/Filesystems/osxfuse.fs/Contents/Resources/mount_osxfuse" then .ok
      else .notExist }

/-- The errno `ENOTDIR` on darwin: `os.Stat` fails with it when a component of the path
that should be a directory is not one, so the path does not exist; `os.IsNotExist` does not
hold for it (it holds for `ENOENT` only). -/
def ENOTDIR : Nat := 20

/-- A world with OSXFUSE forced in which `/etc/passwd` is a regular file, so that `os.Stat`
on `/etc/passwd/x` fails with `ENOTDIR` and launching it fails with the same code; the V3
helper is present and every other path is absent. -/
def notDirWorld : World :=
  { sampleWorld .forceLegacy none rightsMessage with
    stat := fun p =>
      if p = "/etc/passwd/x" then .otherError ENOTDIR
      else if p = "/Library/Filesystems/osxfuse.fs/Contents/Resources/mount_osxfuse" then .ok
      else .notExist
    start := fun bin _ => if bin = "/etc/passwd/x" then some ENOTDIR else none }

/-- A configuration listing `/etc/passwd/x` first and the V3 helper second. -/
def notDirFirstConf : mountConfig :=
  ⟨false, "", "",
    some [⟨"/etc/passwd/x"⟩,
      ⟨"/Library/Filesystems/osxfuse.fs/Contents/Resources/mount_osxfuse"⟩]⟩

/-- A configuration listing `/etc/passwd/x` only. -/
def notDirOnlyConf : mountConfig :=
  ⟨false, "", "", some [⟨"/etc/passwd/x"⟩]⟩

/-- The paths probed by `mount` among the given calls, in order. -/
def probedPaths (evs : List Event) : List String :=
  evs.filterMap (fun ev =>
    match ev with
    | ⟨.mount, .stat p⟩ => some p
    | _ => none)

/-- The binaries launched among the given calls, in order. -/
def launchedBinaries (evs : List Event) : List String :=
  evs.filterMap (fun ev =>
    match ev.op with
    | .start bin _ _ _ => some bin
    | _ => none)

/-- A configuration with no location list of its own. -/
def sampleConf : mountConfig :=
  ⟨true, "vault", "ro", none⟩

/-- A process with the three standard descriptors open and nothing done yet. -/
def freshSys : Sys :=
  ⟨[0, 1, 2], 0, []⟩

/-! ## The control-message decoder -/

/-- Claim C2: whenever the received control length is below `SizeofCmsghdr`, `getConnection`
returns no file and a non-nil error, whatever the control buffer holds and whether or not
`Recvmsg` itself failed. -/
theorem getConnection_short_control_rejected (w : World) (localFile : File) (s : Sys)
    (hshort : (w.recvmsg localFile.fd).oobn < SizeofCmsghdr) :
    (getConnection w localFile s).1.file = none ∧
      (getConnection w localFile s).1.err ≠ none := by
  cases hr : (w.recvmsg localFile.fd).err with
  | some e => simp [getConnection, hr]
  | none =>
    by_cases ht : int32At (w.recvmsg localFile.fd).control 8 = SCM_RIGHTS
    · have hle : (w.recvmsg localFile.fd).oobn ≤ SizeofCmsghdr := le_of_lt hshort
      simp [getConnection, hr, ht, hle]
    · simp [getConnection, hr, ht]

/-- Witness of C2: a control length of 3, with a rights header in the buffer. -/
theorem getConnection_short_control_rejected_witness :
    (getConnection (sampleWorld .forceLegacy none
        ⟨3, [16, 0, 0, 0, 255, 255, 0, 0, 1, 0, 0, 0, 7, 0, 0, 0], none⟩) ⟨3, ""⟩
        freshSys).1.file = none ∧
      (getConnection (sampleWorld .forceLegacy none
        ⟨3, [16, 0, 0, 0, 255, 255, 0, 0, 1, 0, 0, 0, 7, 0, 0, 0], none⟩) ⟨3, ""⟩
        freshSys).1.err ≠ none :=
  getConnection_short_control_rejected _ _ _ (by decide)

/-- Claim C3: whenever the type field of the control header is not `SCM_RIGHTS`,
`getConnection` returns no file and a non-nil error, for every control length and every
descriptor value stored after the header. -/
theorem getConnection_wrong_type_rejected (w : World) (localFile : File) (s : Sys)
    (htype : int32At (w.recvmsg localFile.fd).control 8 ≠ SCM_RIGHTS) :
    (getConnection w localFile s).1.file = none ∧
      (getConnection w localFile s).1.err ≠ none := by
  cases hr : (w.recvmsg localFile.fd).err with
  | some e => simp [getConnection, hr]
  | none => simp [getConnection, hr, htype]

/-- Witness of C3: type field 2, length 16, descriptor 7. -/
theorem getConnection_wrong_type_rejected_witness :
    (getConnection (sampleWorld .forceLegacy none
        ⟨16, [16, 0, 0, 0, 255, 255, 0, 0, 2, 0, 0, 0, 7, 0, 0, 0], none⟩) ⟨3, ""⟩
        freshSys).1.file = none ∧
      (getConnection (sampleWorld .forceLegacy none
        ⟨16, [16, 0, 0, 0, 255, 255, 0, 0, 2, 0, 0, 0, 7, 0, 0, 0], none⟩) ⟨3, ""⟩
        freshSys).1.err ≠ none :=
  getConnection_wrong_type_rejected _ _ _ (by decide)

/-- Counterexample to C4 as stated: a control length equal to `SizeofCmsghdr`, the rights type
and the non-negative descriptor value 3 after the header, and `getConnection` fails with the
too-short error. -/
theorem getConnection_header_only_rejected :
    SizeofCmsghdr ≤ headerOnlyMessage.oobn ∧
      headerOnlyMessage.err = none ∧
      int32At headerOnlyMessage.control 8 = SCM_RIGHTS ∧
      int32At headerOnlyMessage.control SizeofCmsghdr.toNat = 3 ∧
      (getConnection (sampleWorld .forceLegacy none headerOnlyMessage) ⟨3, ""⟩ freshSys).1
        = ⟨none, some (.tooShortControl 12)⟩ := by
  decide

/-- Claim C4, amended: when `Recvmsg` succeeds, the control length is strictly greater than
`SizeofCmsghdr` and the type is `SCM_RIGHTS`, `getConnection` returns the file wrapping the
32-bit value stored right after the header if that value is non-negative, and the
negative-descriptor error (and no file) if it is negative. -/
theorem getConnection_rights_message (w : World) (localFile : File) (s : Sys)
    (hrecv : (w.recvmsg localFile.fd).err = none)
    (hlen : SizeofCmsghdr < (w.recvmsg localFile.fd).oobn)
    (htype : int32At (w.recvmsg localFile.fd).control 8 = SCM_RIGHTS) :
    (0 ≤ int32At (w.recvmsg localFile.fd).control SizeofCmsghdr.toNat →
        (getConnection w localFile s).1 =
          ⟨some ⟨(int32At (w.recvmsg localFile.fd).control SizeofCmsghdr.toNat).toNat,
            "macfuse"⟩, none⟩) ∧
      (int32At (w.recvmsg localFile.fd).control SizeofCmsghdr.toNat < 0 →
        (getConnection w localFile s).1 =
          ⟨none, some (.fdNegative
            (int32At (w.recvmsg localFile.fd).control SizeofCmsghdr.toNat))⟩) := by
  have hnle : ¬ (w.recvmsg localFile.fd).oobn ≤ SizeofCmsghdr := not_le.mpr hlen
  constructor
  · intro hfd
    have hnlt : ¬ int32At (w.recvmsg localFile.fd).control SizeofCmsghdr.toNat < 0 :=
      not_lt.mpr hfd
    simp [getConnection, hrecv, htype, hnle, hnlt]
  · intro hfd
    simp [getConnection, hrecv, htype, hnle, hfd]

/-- Witness of the amended C4: the 16-byte rights message carrying descriptor 7. -/
theorem getConnection_rights_message_witness :
    (getConnection (sampleWorld .forceLegacy none rightsMessage) ⟨3, ""⟩ freshSys).1 =
      ⟨some ⟨7, "macfuse"⟩, none⟩ :=
  (getConnection_rights_message (sampleWorld .forceLegacy none rightsMessage) ⟨3, ""⟩ freshSys
    (by decide) (by decide) (by decide)).1 (by decide)

/-! ## The background tasks -/

/-- The error slot after the FUSE-T task is empty exactly when the write succeeded, the read
returned no error and the reply array compares equal to four zero bytes; the number of bytes
the read delivered plays no part. -/
theorem fuseTHandshakeTask_errp_none_iff (writeErr : Option Nat) (rd : ReadResult)
    (g : Signal) :
    (fuseTHandshakeTask writeErr rd g).errp = none ↔
      writeErr = none ∧ rd.err = none ∧ replyAfterRead rd.data = [0, 0, 0, 0] := by
  cases writeErr with
  | some e => simp [fuseTHandshakeTask, Signal.store, Signal.close]
  | none =>
    cases hr : rd.err with
    | some e => simp [fuseTHandshakeTask, Signal.store, Signal.close, hr]
    | none =>
      by_cases hz : replyAfterRead rd.data = [0, 0, 0, 0]
      · simp [fuseTHandshakeTask, Signal.store, Signal.close, hr, hz]
      · simp [fuseTHandshakeTask, Signal.store, Signal.close, hr, hz]

/-- Claim C1, evaluated at a short read: the write succeeds and the read delivers the single
byte 0 with a nil error; fewer than 4 bytes arrived, yet the task stores nil in the error
slot. -/
theorem fuseTHandshakeTask_short_read_accepted :
    ([0] : List Nat).length < 4 ∧
      (fuseTHandshakeTask none ⟨[0], none⟩ ⟨some (.sys 1), []⟩).errp = none := by
  decide

/-- Claim C9: in a run of either background task the signal is fired exactly once, the error
slot is stored into at most once, and nothing is stored after the signal has fired (every
event that follows a fire is not a store). -/
theorem tasks_fire_once_after_store (writeErr : Option Nat) (rd : ReadResult)
    (waitErr : Option Nat) (errOut out : String) (e0 : Option Error) :
    ((fuseTHandshakeTask writeErr rd ⟨e0, []⟩).events.count .fire = 1 ∧
      ((fuseTHandshakeTask writeErr rd ⟨e0, []⟩).events.filter SigEvent.isStore).length ≤ 1 ∧
      ∀ before after, (fuseTHandshakeTask writeErr rd ⟨e0, []⟩).events
          = before ++ .fire :: after → ∀ ev ∈ after, ev.isStore = false) ∧
    ((osxfuseWaitTask waitErr errOut out ⟨e0, []⟩).events.count .fire = 1 ∧
      ((osxfuseWaitTask waitErr errOut out ⟨e0, []⟩).events.filter SigEvent.isStore).length ≤ 1 ∧
      ∀ before after, (osxfuseWaitTask waitErr errOut out ⟨e0, []⟩).events
          = before ++ .fire :: after → ∀ ev ∈ after, ev.isStore = false) := by
  have key : ∀ (x : SigEvent) (before after : List SigEvent), x.isStore = true →
      [x, SigEvent.fire] = before ++ SigEvent.fire :: after → after = [] := by
    intro x before after hx h
    match before, h with
    | [], h =>
      simp only [List.nil_append, List.cons.injEq] at h
      rw [h.1] at hx
      simp [SigEvent.isStore] at hx
    | [_], h =>
      simp only [List.singleton_append, List.cons.injEq] at h
      exact h.2.2.symm
    | _ :: _ :: rest, h =>
      simp only [List.cons_append, List.cons.injEq] at h
      have := h.2.2
      simp at this
  have key1 : ∀ (before after : List SigEvent),
      [SigEvent.fire] = before ++ SigEvent.fire :: after → after = [] := by
    intro before after h
    match before, h with
    | [], h =>
      simp only [List.nil_append, List.cons.injEq] at h
      exact h.2.symm
    | _ :: rest, h =>
      simp only [List.cons_append, List.cons.injEq] at h
      have := h.2
      simp at this
  refine ⟨⟨?_, ?_, ?_⟩, ?_⟩
  · simp [fuseTHandshakeTask, Signal.store, Signal.close, List.count_cons]
  · simp [fuseTHandshakeTask, Signal.store, Signal.close, List.filter_cons, SigEvent.isStore]
  · intro before after h ev hev
    simp only [fuseTHandshakeTask, Signal.store, Signal.close, List.nil_append,
      List.singleton_append] at h
    rw [key _ before after (by simp [SigEvent.isStore]) h] at hev
    simp at hev
  · cases waitErr with
    | some e =>
      refine ⟨?_, ?_, ?_⟩
      · simp [osxfuseWaitTask, Signal.store, Signal.close, List.count_cons]
      · simp [osxfuseWaitTask, Signal.store, Signal.close, List.filter_cons, SigEvent.isStore]
      · intro before after h ev hev
        simp only [osxfuseWaitTask, Signal.store, Signal.close, List.nil_append,
          List.singleton_append] at h
        rw [key _ before after (by simp [SigEvent.isStore]) h] at hev
        simp at hev
    | none =>
      refine ⟨?_, ?_, ?_⟩
      · simp [osxfuseWaitTask, Signal.close]
      · simp [osxfuseWaitTask, Signal.close, SigEvent.isStore]
      · intro before after h ev hev
        simp only [osxfuseWaitTask, Signal.close, List.nil_append] at h
        rw [key1 before after h] at hev
        simp at hev

/-! ## `tToTv` -/

/-- Claim C10, evaluated half a second before the epoch: the nanosecond timestamp −500000000
fits in 64 bits, `tToTv` returns `Sec = -1`, `Usec = -500000`; `Usec` is negative and
`Sec * 1000000 + Usec` is −1500000, not the floor −500000 of the timestamp in microseconds. -/
theorem tToTv_before_epoch :
    (⟨-1, 500000000⟩ : Time).nsec < 1000000000 ∧
      (⟨-1, 500000000⟩ : Time).UnixNano = -500000000 ∧
      tToTv ⟨-1, 500000000⟩ = ⟨-1, -500000⟩ ∧
      ¬ (0 ≤ (tToTv ⟨-1, 500000000⟩).Usec) ∧
      (tToTv ⟨-1, 500000000⟩).Sec * 1000000 + (tToTv ⟨-1, 500000000⟩).Usec = -1500000 ∧
      (⟨-1, 500000000⟩ : Time).UnixNano / 1000 = -500000 := by
  decide

/-- From the epoch on, `tToTv` is normalised and exact: for a time with `0 ≤ sec`,
`nsec < 1e9` and a timestamp that fits in 64 bits, `0 ≤ Usec < 1000000` and
`Sec * 1000000 + Usec` is the timestamp in microseconds rounded down. -/
theorem tToTv_from_epoch (t : Time) (hsec : 0 ≤ t.sec) (hnsec : t.nsec < 1000000000)
    (hfit : t.sec * 1000000000 + t.nsec < 2 ^ 63) :
    0 ≤ (tToTv t).Usec ∧ (tToTv t).Usec < 1000000 ∧
      (tToTv t).Sec * 1000000 + (tToTv t).Usec = t.UnixNano / 1000 := by
  have hw : ∀ x : Int, 0 ≤ x → x < 2 ^ 63 → wrap64 x = x := by
    intro x h0 h1
    unfold wrap64 Int.bmod
    norm_num at h1 ⊢
    omega
  have hnano : t.UnixNano = t.sec * 1000000000 + t.nsec := by
    unfold Time.UnixNano
    exact hw _ (by positivity) hfit
  have hunix : t.Unix = t.sec := by
    unfold Time.Unix
    apply hw _ hsec
    norm_num at hfit ⊢
    omega
  have hn0 : (0 : Int) ≤ t.sec * 1000000000 + t.nsec := by positivity
  simp only [tToTv, hnano, hunix]
  rw [Int.tmod_eq_emod hn0 (by norm_num), Int.tdiv_eq_ediv (Int.emod_nonneg _ (by norm_num)) (by norm_num)]
  omega

/-! ## Traces -/

/-- The descriptor `lowestFree` picks is not in use. -/
theorem lowestFree_not_mem (used : List Nat) : lowestFree used ∉ used := by
  unfold lowestFree
  cases h : (List.range (used.length + 1)).find? (fun n => !used.contains n) with
  | some n =>
    have := List.find?_some h
    simpa using this
  | none =>
    exfalso
    rw [List.find?_eq_none] at h
    have hsub : List.range (used.length + 1) ⊆ used := by
      intro x hx
      have := h x hx
      simpa using this
    have := ((List.nodup_range (used.length + 1)).subperm hsub).length_le
    simp at this

/-- Under `Grows P` every new call satisfies `P`. -/
theorem Grows.newEvents {P : Event → Prop} {s t : Sys} (h : Grows P s t) :
    ∀ ev ∈ newEvents s t, P ev := by
  obtain ⟨added, ht, hP⟩ := h
  simpa [Fuse.newEvents, ht] using hP

/-- Growth composes. -/
theorem Grows.trans {P : Event → Prop} {s t u : Sys} (h1 : Grows P s t) (h2 : Grows P t u) :
    Grows P s u := by
  obtain ⟨a, ha, hPa⟩ := h1
  obtain ⟨b, hb, hPb⟩ := h2
  refine ⟨a ++ b, by rw [hb, ha, List.append_assoc], ?_⟩
  intro ev hev
  rcases List.mem_append.mp hev with h | h
  · exact hPa ev h
  · exact hPb ev h

/-- Growth under a weaker property. -/
theorem Grows.mono {P Q : Event → Prop} {s t : Sys} (h : Grows P s t)
    (hPQ : ∀ ev, P ev → Q ev) : Grows Q s t := by
  obtain ⟨a, ha, hPa⟩ := h
  exact ⟨a, ha, fun ev hev => hPQ ev (hPa ev hev)⟩

/-- Function `fusetBinary` only adds calls of its own. -/
theorem fusetBinary_grows (w : World) (s : Sys) :
    Grows (fun ev => ev.fn = .fusetBinary) s (fusetBinary w s).2 := by
  unfold Grows fusetBinary
  by_cases h1 : w.getenv "FUSE_NFSSRV_PATH" = "" <;>
    by_cases h2 : w.stat FUSET_SRV_PATH = .ok <;>
    by_cases h3 : w.stat (w.getenv "FUSE_NFSSRV_PATH") = .ok <;>
    simp [h1, h2, h3, Sys.log]

/-- Function `mountFuseT` only adds calls of its own. -/
theorem mountFuseT_grows (w : World) (bin mp : String) (conf : mountConfig) (s : Sys) :
    Grows (fun ev => ev.fn = .mountFuseT) s (mountFuseT w bin mp conf s).2 := by
  unfold Grows mountFuseT
  cases h1 : w.socketpair s.socketpairCalls with
  | some e => simp [syscallSocketpair, h1, Sys.log]
  | none =>
    cases h2 : w.socketpair (s.socketpairCalls + 1) with
    | some e => simp [syscallSocketpair, h1, h2, Sys.log, syscallClose]
    | none =>
      cases h3 : w.start bin (fuseTArgs w mp conf) with
      | some e =>
        simp [syscallSocketpair, h1, h2, h3, Sys.log, syscallClose, syscallCloseOnExec, cmdStart]
      | none =>
        simp [syscallSocketpair, h1, h2, h3, Sys.log, syscallClose, syscallCloseOnExec, cmdStart]

/-- When every location is absent the loop probes all of them and selects nothing. -/
theorem probeLocations_none (w : World) (locs : List OSXFUSEPaths) (s : Sys)
    (h : ∀ loc ∈ locs, w.stat loc.Mount = .notExist) :
    probeLocations w locs s = ("", { s with trace := s.trace ++ locs.map probeEvent }) := by
  induction locs generalizing s with
  | nil => simp [probeLocations]
  | cons loc rest ih =>
    have hl : w.stat loc.Mount = .notExist := h loc (List.mem_cons_self _ _)
    have hr : ∀ l ∈ rest, w.stat l.Mount = .notExist :=
      fun l hl => h l (List.mem_cons_of_mem _ hl)
    simp [probeLocations, hl, ih _ hr, Sys.log, probeEvent]

/-- The loop stops at the first location that is not absent and selects its binary. -/
theorem probeLocations_found (w : World) (pre : List OSXFUSEPaths) (loc : OSXFUSEPaths)
    (post : List OSXFUSEPaths) (s : Sys)
    (hpre : ∀ l ∈ pre, w.stat l.Mount = .notExist) (hloc : w.stat loc.Mount ≠ .notExist) :
    probeLocations w (pre ++ loc :: post) s =
      (loc.Mount, { s with trace := s.trace ++ (pre ++ [loc]).map probeEvent }) := by
  induction pre generalizing s with
  | nil => simp [probeLocations, hloc, Sys.log, probeEvent]
  | cons l rest ih =>
    have hl : w.stat l.Mount = .notExist := hpre l (List.mem_cons_self _ _)
    have hr : ∀ x ∈ rest, w.stat x.Mount = .notExist :=
      fun x hx => hpre x (List.mem_cons_of_mem _ hx)
    simp [probeLocations, hl, ih _ hr, Sys.log, probeEvent]

/-- A list with a location that is not absent splits at the first such location. -/
theorem exists_first_present (w : World) (locs : List OSXFUSEPaths)
    (h : ¬ ∀ loc ∈ locs, w.stat loc.Mount = .notExist) :
    ∃ pre loc post, locs = pre ++ loc :: post ∧
      (∀ l ∈ pre, w.stat l.Mount = .notExist) ∧ w.stat loc.Mount ≠ .notExist := by
  induction locs with
  | nil => simp at h
  | cons l rest ih =>
    by_cases hl : w.stat l.Mount = .notExist
    · have hr : ¬ ∀ loc ∈ rest, w.stat loc.Mount = .notExist := by
        intro hall
        apply h
        intro x hx
        rcases List.mem_cons.mp hx with rfl | hx
        · exact hl
        · exact hall x hx
      obtain ⟨pre, loc, post, heq, hpre, hloc⟩ := ih hr
      refine ⟨l :: pre, loc, post, by simp [heq], ?_, hloc⟩
      intro x hx
      rcases List.mem_cons.mp hx with rfl | hx
      · exact hl
      · exact hpre x hx
    · exact ⟨[], l, rest, rfl, by simp, hl⟩

/-- With nothing selected the OSXFUSE path stops with `ErrOSXFUSENotFound`. -/
theorem mountOSXFUSE_not_found (w : World) (mp : String) (conf : mountConfig) (s s1 : Sys)
    (h : probeLocations w (mountLocations w conf) s = ("", s1)) :
    mountOSXFUSE w mp conf s = (⟨none, none, none, some .ErrOSXFUSENotFound⟩, s1) := by
  simp [mountOSXFUSE, h]

/-- With `b` selected the OSXFUSE path does not fail with `ErrOSXFUSENotFound`, makes no
further probe, and launches nothing but `b`. -/
theorem mountOSXFUSE_selected (w : World) (mp : String) (conf : mountConfig) (s s1 : Sys)
    (b : String) (h : probeLocations w (mountLocations w conf) s = (b, s1)) (hb : b ≠ "") :
    (mountOSXFUSE w mp conf s).1.err ≠ some .ErrOSXFUSENotFound ∧
      Grows (afterProbe b) s1 (mountOSXFUSE w mp conf s).2 := by
  unfold Grows
  simp only [mountOSXFUSE, h, hb, if_false]
  cases h1 : w.socketpair s1.socketpairCalls with
  | some e =>
    simp [unixgramSocketpair, syscallSocketpair, h1, Sys.log, afterProbe, Fn.isLegacy]
  | none =>
    cases h3 : w.start b (osxfuseArgs w mp conf) with
    | some e =>
      simp [unixgramSocketpair, syscallSocketpair, h1, h3, cmdStart, syscallClose, Sys.log,
        afterProbe, Fn.isLegacy]
      exact fun _ _ _ _ hbin _ _ _ => hbin.symm
    | none =>
      cases hr : (w.recvmsg (lowestFree s1.openFds)).err with
      | some e =>
        simp [unixgramSocketpair, syscallSocketpair, h1, h3, cmdStart, syscallClose, Sys.log,
          afterProbe, Fn.isLegacy, getConnection, hr]
        exact fun _ _ _ _ hbin _ _ _ => hbin.symm
      | none =>
        by_cases ht : int32At (w.recvmsg (lowestFree s1.openFds)).control 8 = SCM_RIGHTS
        · by_cases hl : (w.recvmsg (lowestFree s1.openFds)).oobn ≤ SizeofCmsghdr
          · simp [unixgramSocketpair, syscallSocketpair, h1, h3, cmdStart, syscallClose,
              Sys.log, afterProbe, Fn.isLegacy, getConnection, hr, ht, hl]
            exact fun _ _ _ _ hbin _ _ _ => hbin.symm
          · by_cases hf : int32At (w.recvmsg (lowestFree s1.openFds)).control
                SizeofCmsghdr.toNat < 0
            · simp [unixgramSocketpair, syscallSocketpair, h1, h3, cmdStart, syscallClose,
                Sys.log, afterProbe, Fn.isLegacy, getConnection, hr, ht, hl, hf]
              exact fun _ _ _ _ hbin _ _ _ => hbin.symm
            · cases hd : w.dup (int32At (w.recvmsg (lowestFree s1.openFds)).control
                  SizeofCmsghdr.toNat).toNat with
              | some e =>
                simp [unixgramSocketpair, syscallSocketpair, h1, h3, cmdStart, syscallClose,
                  Sys.log, afterProbe, Fn.isLegacy, getConnection, hr, ht, hl, hf, syscallDup,
                  hd]
                exact fun _ _ _ _ hbin _ _ _ => hbin.symm
              | none =>
                simp [unixgramSocketpair, syscallSocketpair, h1, h3, cmdStart, syscallClose,
                  Sys.log, afterProbe, Fn.isLegacy, getConnection, hr, ht, hl, hf, syscallDup,
                  hd, syscallCloseOnExec]
                exact fun _ _ _ _ hbin _ _ _ => hbin.symm
        · simp [unixgramSocketpair, syscallSocketpair, h1, h3, cmdStart, syscallClose,
            Sys.log, afterProbe, Fn.isLegacy, getConnection, hr, ht]
          exact fun _ _ _ _ hbin _ _ _ => hbin.symm

/-- The loop adds probes by `mount` only and leaves the descriptors alone. -/
theorem probeLocations_grows (w : World) (locs : List OSXFUSEPaths) (s : Sys) :
    Grows (fun ev => ev.fn = .mount) s (probeLocations w locs s).2 ∧
      (probeLocations w locs s).2.openFds = s.openFds ∧
      (probeLocations w locs s).2.socketpairCalls = s.socketpairCalls := by
  by_cases h : ∀ loc ∈ locs, w.stat loc.Mount = .notExist
  · rw [probeLocations_none w locs s h]
    exact ⟨⟨locs.map probeEvent, rfl, by simp [probeEvent]⟩, rfl, rfl⟩
  · obtain ⟨pre, loc, post, heq, hpre, hloc⟩ := exists_first_present w locs h
    rw [heq, probeLocations_found w pre loc post s hpre hloc]
    refine ⟨⟨(pre ++ [loc]).map probeEvent, rfl, ?_⟩, rfl, rfl⟩
    intro ev hev
    obtain ⟨l, _, rfl⟩ := List.mem_map.mp hev
    rfl

/-- The only error of `fusetBinary` is its not-found error. -/
theorem fusetBinary_err (w : World) (s : Sys) :
    (fusetBinary w s).1.2 = none ∨ (fusetBinary w s).1.2 = some .fusetNotFound := by
  unfold fusetBinary
  simp only
  split_ifs <;> simp

/-- With FUSE-T forced `mount` is `fusetBinary` followed, on success, by `mountFuseT`. -/
theorem mount_forceModern (w : World) (mp : String) (conf : mountConfig) (s : Sys)
    (h : w.forcedBackend = .forceModern) :
    ((fusetBinary w s).1.2 ≠ none →
        mount w mp conf s = (⟨none, none, none, some .fusetNotFound⟩, (fusetBinary w s).2)) ∧
      ((fusetBinary w s).1.2 = none →
        mount w mp conf s =
          (⟨(mountFuseT w (fusetBinary w s).1.1 mp conf (fusetBinary w s).2).1.file,
            some .fuseTBackend,
            some (mountFuseT w (fusetBinary w s).1.1 mp conf (fusetBinary w s).2).1.state,
            (mountFuseT w (fusetBinary w s).1.1 mp conf (fusetBinary w s).2).1.err⟩,
            (mountFuseT w (fusetBinary w s).1.1 mp conf (fusetBinary w s).2).2)) := by
  rcases hf : fusetBinary w s with ⟨⟨bin, err⟩, s1⟩
  have herr := fusetBinary_err w s
  rw [hf] at herr
  simp only at herr
  constructor
  · intro hne
    simp only at hne
    rcases herr with herr | herr
    · exact absurd herr hne
    · subst herr
      simp [mount, h, ForcedBackend.IsUnset, ForcedBackend.IsFuseT, hf]
  · intro hnone
    simp only at hnone
    subst hnone
    simp [mount, h, ForcedBackend.IsUnset, ForcedBackend.IsFuseT, hf]

/-- With nothing forced and the FUSE-T binary found `mount` returns what `mountFuseT`
returns. -/
theorem mount_unset_found (w : World) (mp : String) (conf : mountConfig) (s : Sys)
    (h : w.forcedBackend = .unset) (hbin : (fusetBinary w s).1.2 = none) :
    mount w mp conf s =
      (⟨(mountFuseT w (fusetBinary w s).1.1 mp conf (fusetBinary w s).2).1.file,
        some .fuseTBackend,
        some (mountFuseT w (fusetBinary w s).1.1 mp conf (fusetBinary w s).2).1.state,
        (mountFuseT w (fusetBinary w s).1.1 mp conf (fusetBinary w s).2).1.err⟩,
        (mountFuseT w (fusetBinary w s).1.1 mp conf (fusetBinary w s).2).2) := by
  rcases hf : fusetBinary w s with ⟨⟨bin, err⟩, s1⟩
  rw [hf] at hbin
  simp only at hbin
  subst hbin
  simp [mount, h, ForcedBackend.IsUnset, ForcedBackend.IsFuseT, hf]

/-- When `mount` takes the OSXFUSE path, it does so from a state that differs from the first
by calls of `fusetBinary` only. -/
theorem mount_legacy_entry (w : World) (mp : String) (conf : mountConfig) (s : Sys)
    (h : w.forcedBackend = .forceLegacy ∨
      (w.forcedBackend = .unset ∧ (fusetBinary w s).1.2 ≠ none)) :
    ∃ s0, Grows (fun ev => ev.fn = .fusetBinary) s s0 ∧ s0.openFds = s.openFds ∧
      mount w mp conf s = mountOSXFUSE w mp conf s0 := by
  rcases h with h | ⟨h, hne⟩
  · exact ⟨s, ⟨[], by simp, by simp⟩, rfl,
      by simp [mount, h, ForcedBackend.IsUnset, ForcedBackend.IsFuseT]⟩
  · refine ⟨(fusetBinary w s).2, fusetBinary_grows w s, ?_, ?_⟩
    · unfold fusetBinary
      simp only
      split_ifs <;> simp [Sys.log]
    · rcases hf : fusetBinary w s with ⟨⟨bin, err⟩, s1⟩
      rw [hf] at hne
      simp only at hne
      cases err with
      | none => exact absurd rfl hne
      | some e => simp [mount, h, ForcedBackend.IsUnset, ForcedBackend.IsFuseT, hf]

/-- When `mount` takes the FUSE-T path, none of its calls is on the OSXFUSE path. -/
theorem mount_modern_grows (w : World) (mp : String) (conf : mountConfig) (s : Sys)
    (h : w.forcedBackend = .forceModern ∨
      (w.forcedBackend = .unset ∧ (fusetBinary w s).1.2 = none)) :
    Grows (fun ev => ev.fn.isLegacy = false) s (mount w mp conf s).2 := by
  have hb : Grows (fun ev => ev.fn.isLegacy = false) s (fusetBinary w s).2 :=
    (fusetBinary_grows w s).mono (fun ev hev => by rw [hev]; rfl)
  have hm : Grows (fun ev => ev.fn.isLegacy = false) (fusetBinary w s).2
      (mountFuseT w (fusetBinary w s).1.1 mp conf (fusetBinary w s).2).2 :=
    (mountFuseT_grows w _ mp conf _).mono (fun ev hev => by rw [hev]; rfl)
  rcases h with h | ⟨h, hbin⟩
  · by_cases hbin : (fusetBinary w s).1.2 = none
    · rw [(mount_forceModern w mp conf s h).2 hbin]
      exact hb.trans hm
    · rw [(mount_forceModern w mp conf s h).1 hbin]
      exact hb
  · rw [mount_unset_found w mp conf s h hbin]
    exact hb.trans hm

/-- The list iterated is the configured one, or V4 then V3. -/
theorem mountLocations_eq (w : World) (conf : mountConfig) :
    mountLocations w conf =
      conf.osxfuseLocations.getD [w.OSXFUSELocationV4, w.OSXFUSELocationV3] := by
  unfold mountLocations
  cases conf.osxfuseLocations <;> rfl

/-- On the OSXFUSE path a failed `cmd.Start` leaves the set of open descriptors as it was:
both ends of the socket pair are closed by the two deferred `Close` calls. -/
theorem mountOSXFUSE_start_failure_closes (w : World) (mp : String) (conf : mountConfig)
    (s : Sys) (e : Nat)
    (hsel : (probeLocations w (mountLocations w conf) s).1 ≠ "")
    (hsock : w.socketpair s.socketpairCalls = none)
    (hfail : w.start (probeLocations w (mountLocations w conf) s).1 (osxfuseArgs w mp conf)
      = some e) :
    (mountOSXFUSE w mp conf s).1.err = some (.sys e) ∧
      (mountOSXFUSE w mp conf s).2.openFds = s.openFds := by
  obtain ⟨_, hopen, hcalls⟩ := probeLocations_grows w (mountLocations w conf) s
  rcases hprobe : probeLocations w (mountLocations w conf) s with ⟨b, s1⟩
  rw [hprobe] at hsel hfail hopen hcalls
  simp only at hsel hfail hopen hcalls
  rw [← hcalls] at hsock
  have h0 : lowestFree s.openFds ∉ s.openFds := lowestFree_not_mem _
  have h1 := lowestFree_not_mem (lowestFree s.openFds :: s.openFds)
  have h10 : lowestFree (lowestFree s.openFds :: s.openFds) ≠ lowestFree s.openFds :=
    fun hc => h1 (by rw [hc]; exact List.mem_cons_self _ _)
  have h1s : lowestFree (lowestFree s.openFds :: s.openFds) ∉ s.openFds :=
    fun hc => h1 (List.mem_cons_of_mem _ hc)
  have hf1 : s.openFds.filter
      (fun x => x != lowestFree (lowestFree s.openFds :: s.openFds)) = s.openFds := by
    rw [List.filter_eq_self]
    intro a ha
    simp only [bne_iff_ne, ne_eq]
    rintro rfl
    exact h1s ha
  have hf0 : s.openFds.filter (fun x => x != lowestFree s.openFds) = s.openFds := by
    rw [List.filter_eq_self]
    intro a ha
    simp only [bne_iff_ne, ne_eq]
    rintro rfl
    exact h0 ha
  simp [mountOSXFUSE, hprobe, hsel, unixgramSocketpair, syscallSocketpair, hsock, cmdStart,
    hfail, syscallClose, Sys.log, List.filter_cons, h10, h10.symm, hf1, hf0, hopen]

/-! ## Backend selection -/

/-- Claim C6: with nothing forced and `fusetBinary` succeeding, the file `mount` returns is
the file `mountFuseT` returns, its state is the state `mountFuseT` returns, its error is the
error `mountFuseT` returns, also when that error is non-nil, the tag is `fuseTBackend`, the
process is left in the state `mountFuseT` leaves, and no call of `mount` belongs to the
OSXFUSE path. -/
theorem mount_unforced_modern_result (w : World) (mp : String) (conf : mountConfig) (s : Sys)
    (hunset : w.forcedBackend = .unset) (hbin : (fusetBinary w s).1.2 = none) :
    (mount w mp conf s).1.f
        = (mountFuseT w (fusetBinary w s).1.1 mp conf (fusetBinary w s).2).1.file ∧
      (mount w mp conf s).1.be = some .fuseTBackend ∧
      (mount w mp conf s).1.bes
        = some (mountFuseT w (fusetBinary w s).1.1 mp conf (fusetBinary w s).2).1.state ∧
      (mount w mp conf s).1.err
        = (mountFuseT w (fusetBinary w s).1.1 mp conf (fusetBinary w s).2).1.err ∧
      (mount w mp conf s).2
        = (mountFuseT w (fusetBinary w s).1.1 mp conf (fusetBinary w s).2).2 ∧
      ∀ ev ∈ newEvents s (mount w mp conf s).2, ev.fn.isLegacy = false := by
  have hev := (mount_modern_grows w mp conf s (Or.inr ⟨hunset, hbin⟩)).newEvents
  rw [mount_unset_found w mp conf s hunset hbin] at hev ⊢
  exact ⟨rfl, rfl, rfl, rfl, rfl, hev⟩

/-- Witness of C6: nothing forced, the FUSE-T binary present, `cmd.Start` failing with code
2; the error `mount` returns is the error of `mountFuseT`, which is that start error, under
the FUSE-T tag and with no file. -/
theorem mount_unforced_modern_result_witness :
    (mount (sampleWorld .unset (some 2) rightsMessage) "/mnt" sampleConf freshSys).1.err
        = (mountFuseT (sampleWorld .unset (some 2) rightsMessage)
            (fusetBinary (sampleWorld .unset (some 2) rightsMessage) freshSys).1.1 "/mnt"
            sampleConf
            (fusetBinary (sampleWorld .unset (some 2) rightsMessage) freshSys).2).1.err ∧
      (mount (sampleWorld .unset (some 2) rightsMessage) "/mnt" sampleConf freshSys).1
        = ⟨none, some .fuseTBackend, some ⟨[]⟩, some (.sys 2)⟩ :=
  ⟨(mount_unforced_modern_result (sampleWorld .unset (some 2) rightsMessage) "/mnt"
      sampleConf freshSys rfl (by decide)).2.2.2.1, by decide⟩

/-- Counterexample to C7 as stated: `os.Stat` on `/etc/passwd/x` fails with `ENOTDIR`, so that
path does not exist, while the V3 helper exists.  With the list `/etc/passwd/x`, V3 helper,
`mount` probes `/etc/passwd/x` only and launches it: it selects a location whose path does
not exist and never reaches the existing one.  With the list `/etc/passwd/x` alone no
location has an existing path, yet `mount` launches it and fails with the launch error, not
with `ErrOSXFUSENotFound`. -/
theorem mount_legacy_selects_not_a_directory :
    notDirWorld.stat "/etc/passwd/x" = .otherError ENOTDIR ∧
      notDirWorld.stat "/Library/Filesystems/osxfuse.fs/Contents/Resources/mount_osxfuse"
        = .ok ∧
      probedPaths (newEvents freshSys (mount notDirWorld "/mnt" notDirFirstConf freshSys).2)
        = ["/etc/passwd/x"] ∧
      launchedBinaries
          (newEvents freshSys (mount notDirWorld "/mnt" notDirFirstConf freshSys).2)
        = ["/etc/passwd/x"] ∧
      (∀ loc ∈ notDirOnlyConf.osxfuseLocations.getD [], notDirWorld.stat loc.Mount ≠ .ok) ∧
      launchedBinaries
          (newEvents freshSys (mount notDirWorld "/mnt" notDirOnlyConf freshSys).2)
        = ["/etc/passwd/x"] ∧
      (mount notDirWorld "/mnt" notDirOnlyConf freshSys).1.err = some (.sys ENOTDIR) ∧
      (mount notDirWorld "/mnt" notDirOnlyConf freshSys).1.err
        ≠ some .ErrOSXFUSENotFound := by
  decide

/-- Claim C7, amended: when `mount` takes the OSXFUSE path (that backend is forced, or nothing
is forced and `fusetBinary` failed), it works on `conf.osxfuseLocations`, or on V4 then V3
when that is nil.  Call a location skipped when `os.Stat` on its binary path reports an error
for which `os.IsNotExist` holds; `os.Stat` on the empty path reports such an error.  `mount`
fails with `ErrOSXFUSENotFound` exactly when every location of the list is skipped.
Otherwise the list splits as `pre ++ loc :: post` with every location of `pre` skipped and
`loc` not skipped (its stat succeeded or failed with another error), the probes `mount` makes
are those of `pre` and `loc` in order, and every later call is no probe and, if a launch,
launches `loc.Mount`. -/
theorem mount_legacy_first_existing_location (w : World) (mp : String) (conf : mountConfig)
    (s : Sys) (hempty : w.stat "" = .notExist)
    (hlegacy : w.forcedBackend = .forceLegacy ∨
      (w.forcedBackend = .unset ∧ (fusetBinary w s).1.2 ≠ none)) :
    ((mount w mp conf s).1.err = some .ErrOSXFUSENotFound ↔
        ∀ loc ∈ conf.osxfuseLocations.getD [w.OSXFUSELocationV4, w.OSXFUSELocationV3],
          w.stat loc.Mount = .notExist) ∧
      ((mount w mp conf s).1.err ≠ some .ErrOSXFUSENotFound →
        ∃ pre loc post entry rest,
          conf.osxfuseLocations.getD [w.OSXFUSELocationV4, w.OSXFUSELocationV3]
            = pre ++ loc :: post ∧
          (∀ l ∈ pre, w.stat l.Mount = .notExist) ∧ w.stat loc.Mount ≠ .notExist ∧
          newEvents s (mount w mp conf s).2 = entry ++ (pre ++ [loc]).map probeEvent ++ rest ∧
          (∀ ev ∈ entry, ev.fn = .fusetBinary) ∧ ∀ ev ∈ rest, afterProbe loc.Mount ev) := by
  obtain ⟨s0, ⟨entry, hentry, hentryP⟩, _, hm⟩ := mount_legacy_entry w mp conf s hlegacy
  rw [hm, ← mountLocations_eq]
  by_cases hall : ∀ loc ∈ mountLocations w conf, w.stat loc.Mount = .notExist
  · have hnf := mountOSXFUSE_not_found w mp conf s0 _
      (probeLocations_none w (mountLocations w conf) s0 hall)
    rw [hnf]
    exact ⟨⟨fun _ => hall, fun _ => rfl⟩, fun hne => absurd rfl hne⟩
  · obtain ⟨pre, loc, post, heq, hpre, hloc⟩ := exists_first_present w _ hall
    have hprobe := probeLocations_found w pre loc post s0 hpre hloc
    rw [← heq] at hprobe
    have hne : loc.Mount ≠ "" := fun hc => hloc (by rw [hc]; exact hempty)
    obtain ⟨herr, rest, hrest, hrestP⟩ := mountOSXFUSE_selected w mp conf s0 _ _ hprobe hne
    refine ⟨⟨fun h => absurd h herr, fun h => absurd h hall⟩, fun _ => ?_⟩
    refine ⟨pre, loc, post, entry, rest, heq, hpre, hloc, ?_, hentryP, hrestP⟩
    simp [newEvents, hrest, hentry, List.append_assoc]

/-- Witness of the amended C7: nothing forced, the FUSE-T binary absent, the default list, the V4 helper
absent and the V3 helper present; `mount` does not fail with `ErrOSXFUSENotFound`. -/
theorem mount_legacy_first_existing_location_witness :
    (mount legacyWorld "/mnt" sampleConf freshSys).1.err ≠ some .ErrOSXFUSENotFound :=
  fun h =>
    absurd
      ((mount_legacy_first_existing_location legacyWorld "/mnt" sampleConf freshSys
        (by decide) (Or.inr ⟨rfl, by decide⟩)).1.mp h legacyWorld.OSXFUSELocationV3
        (by decide))
      (by decide)

/-! ## Descriptors after a failed launch -/

/-- Claim C8, evaluated on the FUSE-T path: with descriptors 0, 1, 2 open, both socket pairs
succeed (3, 4 and 5, 6) and `cmd.Start` fails with code 2; `mount` returns that error, and at
the return the two deferred closes have closed 6 and 4 only, so 3 and 5, the local ends of the
two pairs, are still open. -/
theorem mountFuseT_start_failure_leaves_local_ends_open :
    (mount (sampleWorld .forceModern (some 2) rightsMessage) "/mnt" sampleConf freshSys).1.err
        = some (.sys 2) ∧
      freshSys.openFds = [0, 1, 2] ∧
      (mount (sampleWorld .forceModern (some 2) rightsMessage) "/mnt" sampleConf
        freshSys).2.openFds = [5, 3, 0, 1, 2] ∧
      (newEvents freshSys (mount (sampleWorld .forceModern (some 2) rightsMessage) "/mnt"
        sampleConf freshSys).2).filter (fun ev => ev.op = .close 3 ∨ ev.op = .close 5) = [] := by
  decide

end Fuse
